import Mathlib

/-!
Verification of the competitor-analysis / campaign-strategy heuristics of the
hacksync_warriors repository.

The JavaScript sources embedded here:
  * `backend/src/controllers/competitor.controller.js` — `analyzeCompetitor`,
    `extractInsights`, `extractKeywords`, `extractColors`, `analyzeLayout`,
    `generateRecommendations`;
  * the frontend port of the same controller, which additionally contains
    `generateIntelligentMock`;
  * the campaign controller — the Gemini-response normalisation in
    `analyzeWithGemini` and the fallback `parsePromptToStrategy`.

Modelling conventions:
  * JS strings become Lean `String`s; `s.length` / `slice` are modelled on
    characters (all strings involved are ASCII, where JS UTF-16 units and
    characters coincide).
  * JS numbers become `Nat` / `Int` / `ℚ` (`ℚ` where the source relies on
    non-integer division, e.g. `x / list.length`); no operation here can
    overflow IEEE doubles on realistic inputs.
  * JS objects built by the code become Lean structures; a field that one
    producer omits (`undefined` in JS) becomes an `Option` field set to
    `none`, so that `obj?.field` / `obj.field || d` translate to `Option`
    projections.
  * cheerio / DOMParser selections are modelled by a flattened list of
    elements with the attributes the selectors inspect; `new URL` (a JS
    builtin) is modelled for ordinary `http(s)://host/...` URLs, returning
    `none` exactly where the builtin throws.
-/

namespace HackSync

/-! ## JS string primitives -/

/-- The whitespace characters of the JS regex class `\s` (restricted to the
ASCII range; the sources only ever produce ASCII whitespace). -/
def isJsSpace (c : Char) : Bool :=
  c == ' ' || c == '\t' || c == '\n' || c == '\r' || c == '\x0b' || c == '\x0c'

/-- JS `String.prototype.trim` (ASCII whitespace). -/
def jsTrim (s : String) : String :=
  String.mk (((s.data.dropWhile isJsSpace).reverse.dropWhile isJsSpace).reverse)

/-- JS `String.prototype.slice(0, n)`. -/
def jsTake (s : String) (n : Nat) : String :=
  String.mk (s.data.take n)

/-- Auxiliary for `jsSplitWs`: splitting on maximal whitespace runs.  A run
terminates the current (possibly empty) token, exactly as JS
`split(/\s+/)` does, so `"".split` gives `[""]` and `" a"` gives `["", "a"]`.
`inRun` records that the previous character was whitespace (so further
whitespace extends the same separator run instead of emitting a token). -/
def jsSplitWsAux : Bool → List Char → List Char → List (List Char)
  | _, [], acc => [acc.reverse]
  | inRun, c :: cs, acc =>
    if isJsSpace c then
      if inRun then jsSplitWsAux true cs acc
      else acc.reverse :: jsSplitWsAux true cs []
    else jsSplitWsAux false cs (c :: acc)

/-- JS `s.split(/\s+/)`. -/
def jsSplitWs (s : String) : List String :=
  (jsSplitWsAux false s.data []).map String.mk

/-- JS `String.prototype.toLowerCase` (ASCII case mapping; every string the
analysed code lowercases is ASCII).  Implemented over the character list so
that it evaluates by kernel reduction. -/
def jsToLower (s : String) : String :=
  String.mk (s.data.map Char.toLower)

/-- JS `Array.prototype.join(sep)`. -/
def jsJoinSep (sep : String) : List String → String
  | [] => ""
  | [s] => s
  | s :: rest => s ++ sep ++ jsJoinSep sep rest

/-- Whether `sub` occurs contiguously in `l`. -/
def charsInfixOf (sub : List Char) : List Char → Bool
  | [] => sub.isEmpty
  | c :: cs => sub.isPrefixOf (c :: cs) || charsInfixOf sub cs

/-- JS substring test `s.includes(sub)`. -/
def jsIncludes (s sub : String) : Bool :=
  charsInfixOf sub.data s.data

/-! ## Keyword extractor (`extractKeywords`, competitor controller) -/

/-- The stop-word set of `extractKeywords`. -/
def stopWords : List String :=
  ["the", "be", "to", "of", "and", "a", "in", "that", "have", "i",
   "it", "for", "not", "on", "with", "he", "as", "you", "do", "at",
   "this", "but", "his", "by", "from", "they", "we", "say", "her", "she",
   "or", "an", "will", "my", "one", "all", "would", "there", "their"]

/-- One step of `text.replace(/[^a-z0-9\s]/g, ' ')` (applied after
`toLowerCase`): any character that is not a lowercase letter, digit or
whitespace becomes a space. -/
def keepKeywordChar (c : Char) : Char :=
  if ('a' ≤ c && c ≤ 'z') || ('0' ≤ c && c ≤ '9') || isJsSpace c then c else ' '

/-- The token pipeline of `extractKeywords`: lowercase, strip non-alphanumerics
to spaces, split on whitespace, keep tokens of length > 3 outside the
stop-word set. -/
def tokenize (text : String) : List String :=
  (jsSplitWs (String.mk ((jsToLower text).data.map keepKeywordChar))).filter
    (fun w => decide (3 < w.length) && !(stopWords.contains w))

/-- `wordCount[word] = (wordCount[word] || 0) + 1` on an insertion-ordered
association list (JS object with string keys). -/
def bumpCount : List (String × Nat) → String → List (String × Nat)
  | [], w => [(w, 1)]
  | (k, n) :: rest, w =>
    if k = w then (k, n + 1) :: rest else (k, n) :: bumpCount rest w

/-- The frequency map accumulated by the `words.forEach` loop. -/
def countTokens (ws : List String) : List (String × Nat) :=
  ws.foldl bumpCount []

/-- The count stored for a key in the frequency map (`wordCount[word] || 0`);
used to state the correctness of `countTokens`. -/
def lookupCount : List (String × Nat) → String → Nat
  | [], _ => 0
  | (k, n) :: rest, w => if k = w then n else lookupCount rest w

/-- Numeric value of a digit string. -/
def digitsVal (s : String) : Nat :=
  s.data.foldl (fun n c => n * 10 + (c.toNat - '0'.toNat)) 0

/-- Whether a JS object key is an array index (a canonical numeric string
below 2^32 - 1): such keys are enumerated by `Object.entries` before all
other keys, in ascending numeric order. -/
def isArrayIndexKey (s : String) : Bool :=
  (s == "0" || (!s.isEmpty && s.data.all Char.isDigit && s.data.head? != some '0')) &&
  digitsVal s < 2 ^ 32 - 1

/-- Ascending numeric order on array-index keys.  Distinct canonical numeric
strings have distinct values, so this is a linear order on the keys being
sorted and any sorting algorithm produces the enumeration order of
`Object.entries`. -/
def numKeyLE (a b : String × Nat) : Prop :=
  digitsVal a.1 ≤ digitsVal b.1

instance : DecidableRel numKeyLE := fun a b => by unfold numKeyLE; infer_instance

instance : IsTotal (String × Nat) numKeyLE := ⟨by intro a b; unfold numKeyLE; omega⟩

instance : IsTrans (String × Nat) numKeyLE := ⟨by intro a b c; unfold numKeyLE; omega⟩

/-- `Object.entries(wordCount)`: array-index keys first in ascending numeric
order, then the remaining keys in insertion order. -/
def jsEntries (m : List (String × Nat)) : List (String × Nat) :=
  (m.filter (fun e => isArrayIndexKey e.1)).insertionSort numKeyLE
    ++ m.filter (fun e => !isArrayIndexKey e.1)

/-- The order computed by the comparator `(a, b) => b[1] - a[1]` on entries
tagged with their position: descending count, ties by ascending original
position.  This is a linear order on the tagged entries (positions are
distinct), so sorting by it is exactly the stable descending-count sort
that `Array.prototype.sort` performs. -/
def tagLE (a b : Nat × (String × Nat)) : Prop :=
  b.2.2 < a.2.2 ∨ (a.2.2 = b.2.2 ∧ a.1 ≤ b.1)

instance : DecidableRel tagLE := fun a b => by unfold tagLE; infer_instance

instance : IsTotal (Nat × (String × Nat)) tagLE := ⟨by intro a b; unfold tagLE; omega⟩

instance : IsTrans (Nat × (String × Nat)) tagLE := ⟨by intro a b c; unfold tagLE; omega⟩

/-- `entries.sort((a, b) => b[1] - a[1])`: the stable sort by descending
count, via position tagging. -/
def jsSortByCountDesc (l : List (String × Nat)) : List (String × Nat) :=
  (l.enum.insertionSort tagLE).map (·.2)

/-- `extractKeywords` of the competitor controller. -/
def extractKeywords (text : String) : List String :=
  (jsSortByCountDesc (jsEntries (countTokens (tokenize text)))).map (·.1)

/-! ## DOM model

cheerio selections are modelled over a flattened list of elements in document
order, each carrying the attributes the controller's selectors inspect.  A
CSS query becomes a predicate filter over this list; `$('body').find('*')`
(used by the pricing scan) is the whole list. -/

structure Element where
  tag : String
  classAttr : String := ""
  styleAttr : String := ""
  roleAttr : String := ""
  srcAttr : String := ""
  nameAttr : String := ""
  contentAttr : String := ""
  text : String := ""
deriving Repr, DecidableEq

abbrev Document := List Element

/-- CSS class selector `.c`: `c` is one of the whitespace-separated class
tokens. -/
def hasClassToken (e : Element) (c : String) : Bool :=
  (jsSplitWs e.classAttr).contains c

/-- CSS attribute-substring selector `[class*="sub"]`. -/
def classAttrContains (e : Element) (sub : String) : Bool :=
  jsIncludes e.classAttr sub

def selHeading (e : Element) : Bool :=
  e.tag == "h1" || e.tag == "h2" || e.tag == "h3"

def selMainContent (e : Element) : Bool :=
  e.tag == "p" || e.tag == "article" || e.tag == "main"

/-- `button, .cta, .hero, .value-prop, [class*="benefit"]`. -/
def selValueProp (e : Element) : Bool :=
  e.tag == "button" || hasClassToken e "cta" || hasClassToken e "hero" ||
  hasClassToken e "value-prop" || classAttrContains e "benefit"

/-- `[class*="testimonial"], [class*="review"], [class*="feedback"]`. -/
def selTestimonial (e : Element) : Bool :=
  classAttrContains e "testimonial" || classAttrContains e "review" ||
  classAttrContains e "feedback"

/-- `video, iframe[src*="youtube"], iframe[src*="vimeo"]`. -/
def selVideo (e : Element) : Bool :=
  e.tag == "video" ||
  (e.tag == "iframe" && (jsIncludes e.srcAttr "youtube" || jsIncludes e.srcAttr "vimeo"))

/-- `button, [class*="cta"]`. -/
def selCTA (e : Element) : Bool :=
  e.tag == "button" || classAttrContains e "cta"

/-- `[style*="color"], [style*="background"]`. -/
def selStyledColor (e : Element) : Bool :=
  jsIncludes e.styleAttr "color" || jsIncludes e.styleAttr "background"

def selHeader (e : Element) : Bool := e.tag == "header" || e.roleAttr == "banner"
def selNav (e : Element) : Bool := e.tag == "nav" || e.roleAttr == "navigation"
def selFooter (e : Element) : Bool := e.tag == "footer" || e.roleAttr == "contentinfo"
def selSidebar (e : Element) : Bool := e.tag == "aside" || hasClassToken e "sidebar"
def selSection (e : Element) : Bool := e.tag == "section" || e.roleAttr == "region"

/-! ## Pricing and color regexes -/

/-- The word alternatives of `/\d+\s*(dollars|USD|EUR|price|cost)/i`
(lowercased; the subject is lowercased before matching to model the `i`
flag). -/
def pricingWords : List String := ["dollars", "usd", "eur", "price", "cost"]

/-- Whether `/\$\d+|\d+\s*(dollars|USD|EUR|price|cost)/` matches anywhere in
an (already lowercased) character list: either a `$` directly followed by a
digit, or a digit followed by optional whitespace and one of the words. -/
def pricingScan : List Char → Bool
  | [] => false
  | ['$'] => false
  | '$' :: c :: rest => if c.isDigit then true else pricingScan (c :: rest)
  | c :: rest =>
    (c.isDigit && pricingWords.any (fun w => w.data.isPrefixOf (rest.dropWhile isJsSpace))) ||
    pricingScan rest

/-- JS `text.match(/\$\d+|\d+\s*(dollars|USD|EUR|price|cost)/i)` as a
boolean. -/
def matchesPricing (s : String) : Bool :=
  pricingScan (jsToLower s).data

def isHexDigitChar (c : Char) : Bool :=
  c.isDigit || ('a' ≤ c && c ≤ 'f') || ('A' ≤ c && c ≤ 'F')

/-- Case-insensitive literal match of `pat` (given lowercased) against the
front of `l`, returning the consumed original characters and the rest. -/
def ciPrefixScan : List Char → List Char → Option (List Char × List Char)
  | [], l => some ([], l)
  | _ :: _, [] => none
  | p :: ps, c :: cs =>
    if c.toLower == p then (ciPrefixScan ps cs).map (fun r => (c :: r.1, r.2)) else none

/-- One attempt of `/#[0-9a-f]{3,6}|rgb\([^)]+\)|rgba\([^)]+\)/i` at the
current position, trying the alternatives in order; returns the matched
characters and the remainder. -/
def colorMatchAt (l : List Char) : Option (List Char × List Char) :=
  match l with
  | '#' :: rest =>
    let hex := (rest.take 6).takeWhile isHexDigitChar
    if 3 ≤ hex.length then some ('#' :: hex, rest.drop hex.length) else none
  | _ =>
    match ciPrefixScan "rgb(".data l with
    | some (pre, rest) =>
      let body := rest.takeWhile (fun c => !(c == ')'))
      match rest.drop body.length with
      | ')' :: after => if body.isEmpty then none else some (pre ++ body ++ [')'], after)
      | _ =>
        match ciPrefixScan "rgba(".data l with
        | some (pre2, rest2) =>
          let body2 := rest2.takeWhile (fun c => !(c == ')'))
          match rest2.drop body2.length with
          | ')' :: after2 =>
            if body2.isEmpty then none else some (pre2 ++ body2 ++ [')'], after2)
          | _ => none
        | none => none
    | none =>
      match ciPrefixScan "rgba(".data l with
      | some (pre2, rest2) =>
        let body2 := rest2.takeWhile (fun c => !(c == ')'))
        match rest2.drop body2.length with
        | ')' :: after2 =>
          if body2.isEmpty then none else some (pre2 ++ body2 ++ [')'], after2)
        | _ => none
      | none => none

/-- Global regex scan: on a match advance past it, otherwise advance one
character.  Fuel (the initial length) bounds the recursion; every step
consumes at least one character, so the fuel never runs out early. -/
def colorScanFuel : Nat → List Char → List String
  | 0, _ => []
  | _, [] => []
  | fuel + 1, l =>
    match colorMatchAt l with
    | some (m, after) => String.mk m :: colorScanFuel fuel after
    | none => colorScanFuel fuel l.tail

/-- JS `style.match(/#[0-9a-f]{3,6}|rgb\([^)]+\)|rgba\([^)]+\)/gi)` (empty
list for no match). -/
def colorMatches (s : String) : List String :=
  colorScanFuel s.data.length s.data

/-- First-seen deduplication with an accumulator of already-seen values. -/
def dedupFirstAux : List String → List String → List String
  | [], _ => []
  | x :: xs, seen =>
    if seen.contains x then dedupFirstAux xs seen
    else x :: dedupFirstAux xs (seen ++ [x])

/-- First-seen deduplication, the order a JS `Set` enumerates insertions. -/
def dedupFirst (l : List String) : List String :=
  dedupFirstAux l []

/-- `extractColors` of the competitor controller. -/
def extractColors (doc : Document) : List String :=
  (dedupFirst ((doc.filter selStyledColor).map (fun e => colorMatches e.styleAttr)).flatten).take 10

structure LayoutFlags where
  hasHeader : Bool
  hasNav : Bool
  hasFooter : Bool
  hasSidebar : Bool
  sections : Nat
deriving Repr, DecidableEq

/-- `analyzeLayout` of the competitor controller. -/
def analyzeLayout (doc : Document) : LayoutFlags :=
  { hasHeader := decide (0 < (doc.filter selHeader).length)
    hasNav := decide (0 < (doc.filter selNav).length)
    hasFooter := decide (0 < (doc.filter selFooter).length)
    hasSidebar := decide (0 < (doc.filter selSidebar).length)
    sections := (doc.filter selSection).length }

/-! ## Analysis records

The duck-typed JS objects produced by `extractInsights` and by
`generateIntelligentMock` are merged into one structure; a field that one of
the two producers does not set (`undefined` in JS) is an `Option` field left
`none` by that producer. -/

structure DesignElements where
  hasVideo : Bool
  hasImages : Nat
  hasCTA : Nat
  colorScheme : Option (List String) := none
  layout : Option LayoutFlags := none
  wordCount : Option Nat := none
deriving Repr, DecidableEq

structure Metric where
  label : String
  value : Nat
deriving Repr, DecidableEq

structure Analysis where
  title : Option String := none
  metaDescription : Option String := none
  headings : List String := []
  keywords : List String := []
  valuePropositions : List String := []
  pricingInfo : List String := []
  testimonials : Option (List String) := none
  designElements : DesignElements
  contentLength : Option Nat := none
  wordCount : Option Nat := none
  strengths : List String := []
  weaknesses : List String := []
  metrics : List Metric := []
deriving Repr, DecidableEq

/-- `extractInsights` of the competitor controller. -/
def extractInsights (doc : Document) (brandContext : String) : Analysis :=
  let title := jsTrim (String.join ((doc.filter (fun e => e.tag == "title")).map (·.text)))
  let metaDescription :=
    (((doc.filter (fun e => e.tag == "meta" && e.nameAttr == "description")).head?).map
      (·.contentAttr)).getD ""
  let headings := ((doc.filter selHeading).map (fun e => jsTrim e.text)).filter
    (fun t => !(t == "") && decide (3 < t.length) && decide (t.length < 200))
  let mainText := jsTrim (jsTake ((doc.filter selMainContent).foldl
    (fun acc e =>
      let t := jsTrim e.text
      if t == "" then acc else acc ++ t ++ " ") "") 2000)
  let keywords := extractKeywords (mainText ++ " " ++ jsJoinSep " " headings)
  let pricingIndicators := doc.foldl
    (fun acc e =>
      if matchesPricing e.text then
        let priceText := jsTake (jsTrim e.text) 100
        if !(priceText == "") && !(acc.contains priceText) then acc ++ [priceText] else acc
      else acc) []
  let valueProps := ((doc.filter selValueProp).map (fun e => jsTrim e.text)).filter
    (fun t => !(t == "") && decide (10 < t.length) && decide (t.length < 150))
  let testimonials := ((doc.filter selTestimonial).map (fun e => jsTrim e.text)).filter
    (fun t => !(t == "") && decide (20 < t.length) && decide (t.length < 300))
  { title := some title
    metaDescription := some metaDescription
    headings := headings.take 10
    keywords := keywords.take 20
    valuePropositions := valueProps.take 5
    pricingInfo := pricingIndicators.take 5
    testimonials := some (testimonials.take 3)
    designElements :=
      { hasVideo := decide (0 < (doc.filter selVideo).length)
        hasImages := (doc.filter (fun e => e.tag == "img")).length
        hasCTA := (doc.filter selCTA).length
        colorScheme := some (extractColors doc)
        layout := some (analyzeLayout doc) }
    contentLength := some mainText.length
    wordCount := some (jsSplitWs mainText).length }

/-! ## Insights and recommendations -/

/-- One per-URL record of the analyze endpoint (the `scrapedAt` timestamp,
an external clock read, is omitted). -/
structure Insight where
  url : String
  domain : String
  analysis : Option Analysis := none
  error : Option String := none
deriving Repr, DecidableEq

structure Recommendation where
  category : String
  title : String
  insight : String
  action : String
  priority : String
deriving Repr, DecidableEq

/-- `generateRecommendations` returns either the structured recommendation
array or, when no insight is valid, a plain array holding one sentinel
string. -/
inductive RecResult where
  | sentinel (msgs : List String)
  | structured (recs : List Recommendation)
deriving Repr, DecidableEq

/-- `insights.filter(i => i.analysis && !i.error)`. -/
def validInsights (insights : List Insight) : List Insight :=
  insights.filter (fun i => i.analysis.isSome && i.error.isNone)

/-- The `allKeywords` accumulator of the aggregation loop. -/
def allKeywords (vs : List Insight) : List String :=
  vs.foldl (fun acc i =>
    match i.analysis with
    | some a => acc ++ a.keywords
    | none => acc) []

/-- The `allValueProps` accumulator of the aggregation loop. -/
def allValueProps (vs : List Insight) : List String :=
  vs.foldl (fun acc i =>
    match i.analysis with
    | some a => acc ++ a.valuePropositions
    | none => acc) []

/-- The `totalHasVideo` counter: valid insights whose
`designElements?.hasVideo` is truthy. -/
def totalHasVideo (vs : List Insight) : Nat :=
  vs.countP (fun i =>
    match i.analysis with
    | some a => a.designElements.hasVideo
    | none => false)

/-- The `totalCTAs` accumulator: sum of `designElements?.hasCTA || 0`. -/
def totalCTAs (vs : List Insight) : Nat :=
  (vs.map (fun i =>
    match i.analysis with
    | some a => a.designElements.hasCTA
    | none => 0)).sum

/-- `validInsights.filter(i => i.analysis?.testimonials?.length > 0).length`;
an absent `testimonials` field compares as `undefined > 0`, i.e. `false`. -/
def withTestimonials (vs : List Insight) : Nat :=
  vs.countP (fun i =>
    match i.analysis with
    | some a => decide (0 < (a.testimonials.getD []).length)
    | none => false)

/-- `reduce((sum, i) => sum + (i.analysis?.wordCount || 0), 0)`: only the
top-level `wordCount` field is read. -/
def sumWordCounts (vs : List Insight) : Nat :=
  (vs.map (fun i =>
    match i.analysis with
    | some a => a.wordCount.getD 0
    | none => 0)).sum

/-- JS `Math.round` on the exact rational the float arithmetic approximates. -/
def jsRound (q : ℚ) : ℤ :=
  ⌊q + 1 / 2⌋

/-- One conditional `recommendations.push(r)`. -/
def optRec (g : Bool) (r : Recommendation) : List Recommendation :=
  if g then [r] else []

def keywordRec (topKeywords : List String) : Recommendation :=
  { category := "Content Strategy"
    title := "Leverage Competitor Keywords"
    insight := "Your competitors are focusing on: " ++ jsJoinSep ", " (topKeywords.take 5)
    action := "Consider incorporating these keywords into your content strategy to improve SEO and resonate with your target audience."
    priority := "high" }

def videoRec (pct : ℤ) : Recommendation :=
  { category := "Media Strategy"
    title := "Video Content Opportunity"
    insight := toString pct ++ "% of analyzed competitors use video content"
    action := "Consider adding product demos, explainer videos, or customer testimonials to increase engagement."
    priority := "medium" }

def messagingRec : Recommendation :=
  { category := "Messaging"
    title := "Strengthen Your Value Proposition"
    insight := "Competitors are emphasizing clear benefits and outcomes"
    action := "Ensure your messaging clearly communicates unique value. Consider A/B testing different value propositions."
    priority := "high" }

def ctaRec (avg : ℤ) : Recommendation :=
  { category := "Conversion Optimization"
    title := "Multiple Call-to-Actions"
    insight := "Competitors average " ++ toString avg ++ " CTAs per page"
    action := "Strategically place CTAs throughout your page to guide users toward conversion."
    priority := "medium" }

def trustRec (pct : ℤ) : Recommendation :=
  { category := "Trust Building"
    title := "Add Social Proof"
    insight := toString pct ++ "% of competitors display customer testimonials"
    action := "Showcase customer reviews, case studies, or trust badges to build credibility."
    priority := "high" }

def contentRec (avg : ℤ) : Recommendation :=
  { category := "Content Quality"
    title := "Comprehensive Content"
    insight := "Competitors provide detailed content (avg " ++ toString avg ++ " words)"
    action := "Create in-depth, valuable content that addresses user pain points and questions."
    priority := "medium" }

/-- `[...new Set(allKeywords)].slice(0, 10)`. -/
def topKeywordsOf (vs : List Insight) : List String :=
  (dedupFirst (allKeywords vs)).take 10

/-- The gate `totalHasVideo > validInsights.length / 2` (JS float division). -/
def videoGate (vs : List Insight) : Bool :=
  decide ((totalHasVideo vs : ℚ) > (vs.length : ℚ) / 2)

/-- `Math.round((totalHasVideo / validInsights.length) * 100)`. -/
def videoPct (vs : List Insight) : ℤ :=
  jsRound ((totalHasVideo vs : ℚ) / (vs.length : ℚ) * 100)

/-- `totalCTAs / validInsights.length`. -/
def avgCTAsQ (vs : List Insight) : ℚ :=
  (totalCTAs vs : ℚ) / (vs.length : ℚ)

/-- `Math.round((withTestimonials / validInsights.length) * 100)`. -/
def testiPct (vs : List Insight) : ℤ :=
  jsRound ((withTestimonials vs : ℚ) / (vs.length : ℚ) * 100)

/-- `reduce(...) / validInsights.length`, the average word count. -/
def avgWordCountQ (vs : List Insight) : ℚ :=
  (sumWordCounts vs : ℚ) / (vs.length : ℚ)

/-- The six independently gated pushes of `generateRecommendations`, in
declaration order. -/
def recommendationList (insights : List Insight) : List Recommendation :=
  optRec (decide (0 < (topKeywordsOf (validInsights insights)).length))
    (keywordRec (topKeywordsOf (validInsights insights))) ++
  optRec (videoGate (validInsights insights))
    (videoRec (videoPct (validInsights insights))) ++
  optRec (decide (0 < (allValueProps (validInsights insights)).length)) messagingRec ++
  optRec (decide (avgCTAsQ (validInsights insights) > 5))
    (ctaRec (jsRound (avgCTAsQ (validInsights insights)))) ++
  optRec (decide (0 < withTestimonials (validInsights insights)))
    (trustRec (testiPct (validInsights insights))) ++
  optRec (decide (avgWordCountQ (validInsights insights) > 500))
    (contentRec (jsRound (avgWordCountQ (validInsights insights))))

/-- `generateRecommendations` of the competitor controller (`brandContext`
is accepted and unused, as in the source). -/
def generateRecommendations (insights : List Insight) (brandContext : String) : RecResult :=
  if (validInsights insights).length = 0 then
    .sentinel ["Unable to generate recommendations due to scraping errors"]
  else
    .structured (recommendationList insights)

/-! ## URL hostname and the intelligent mock -/

/-- Models the JS builtin `new URL(u).hostname` for ordinary
`http://` / `https://` URLs: the host runs to the first `/`, `:`, `?` or `#`
after the scheme separator and is lowercased.  `none` models the `TypeError`
the builtin throws (no recognised scheme, or an empty host). -/
def urlHostname (url : String) : Option String :=
  let rest? :=
    if "https://".data.isPrefixOf url.data then some (url.data.drop 8)
    else if "http://".data.isPrefixOf url.data then some (url.data.drop 7)
    else none
  match rest? with
  | none => none
  | some rest =>
    let host := rest.takeWhile (fun c => !(c == '/' || c == ':' || c == '?' || c == '#'))
    if host.isEmpty then none else some (String.mk (host.map Char.toLower))

/-- The fixed metric labels and base values of `generateIntelligentMock`. -/
def mockMetricBases : List (String × Nat) :=
  [("Visual Appeal", 70), ("Market Authority", 60), ("Social Engagement", 50)]

/-- Body of `generateIntelligentMock` once `new URL(url).hostname` has
succeeded.  `industry = ""` stands for a falsy (absent/empty) industry, as
in `${industry || 'the market'}`. -/
def generateIntelligentMockBody (domain brandContext industry : String) : Analysis :=
  let seed := domain.length + brandContext.length
  { keywords := ["premium", "innovation", "reliability", "enterprise", "cutting-edge",
                 "solution", "experience"]
    valuePropositions :=
      ["Leading provider in " ++ (if industry == "" then "the market" else industry),
       "Focus on user experience and simplicity",
       "Advanced features for professionals"]
    strengths := ["Strong domain authority", "Clear call-to-actions",
                  "High-quality visual assets", "Mobile-optimized experience"]
    weaknesses := ["Dense technical jargon", "Slow pageload performance",
                   "Complex navigation structure"]
    metrics := mockMetricBases.map (fun m => { label := m.1, value := min 98 (m.2 + seed % 30) })
    designElements :=
      { hasVideo := seed % 2 == 0
        hasImages := 5 + seed % 10
        hasCTA := 3 + seed % 5
        wordCount := some (500 + seed % 1000) } }

/-- `generateIntelligentMock` of the frontend-ported controller; `none`
models the `TypeError` of `new URL` on an unparseable url. -/
def generateIntelligentMock (url brandContext industry : String) : Option Analysis :=
  (urlHostname url).map (fun d => generateIntelligentMockBody d brandContext industry)

/-! ## The analyze endpoint (backend variant) -/

structure AnalyzeResponse where
  brandContext : String
  insights : List Insight
  recommendations : RecResult
deriving Repr, DecidableEq

inductive ApiResult where
  | badRequest (msg : String)
  | serverError (msg : String)
  | ok (resp : AnalyzeResponse)
deriving Repr, DecidableEq

/-- One iteration of the scraping loop: the `scrape` oracle stands for the
awaited ScrapingBee call (`.error` = the axios promise rejected).  On
success the insight is built from `extractInsights`; on failure the `catch`
block builds the error record.  Both paths evaluate `new URL(url).hostname`;
when that throws, the exception escapes the per-URL `catch` (the `catch`
block itself throws), modelled by `none`. -/
def processUrl (scrape : String → Except Unit Document) (brandContext url : String) :
    Option Insight :=
  match scrape url, urlHostname url with
  | .ok doc, some d =>
    some { url := url, domain := d,
           analysis := some (extractInsights doc brandContext), error := none }
  | .error _, some d =>
    some { url := url, domain := d,
           analysis := none, error := some "Failed to scrape this competitor" }
  | _, none => none

/-- The `for (const url of competitorUrls.slice(0, 3))` loop; `none` means an
exception escaped a loop iteration and aborted the batch. -/
def scrapeLoop (scrape : String → Except Unit Document) (brandContext : String)
    (urls : List String) : Option (List Insight) :=
  (urls.take 3).foldl
    (fun acc url => acc.bind (fun l => (processUrl scrape brandContext url).map (l ++ [·])))
    (some [])

/-- `analyzeCompetitor` of the backend controller.  The ScrapingBee API key
constant is a non-empty literal, so its missing-key 500 branch is dead and
not modelled.  A missing body field is `none`; an empty `brandContext`
string is falsy, like a missing one. -/
def analyzeCompetitor (scrape : String → Except Unit Document) :
    Option String → Option (List String) → ApiResult
  | some bc, some urls =>
    if bc == "" || urls.isEmpty then
      .badRequest "Brand context and at least one competitor URL required"
    else
      match scrapeLoop scrape bc urls with
      | none => .serverError "Failed to analyze competitors"
      | some insights =>
        .ok { brandContext := bc, insights := insights,
              recommendations := generateRecommendations insights bc }
  | _, _ => .badRequest "Brand context and at least one competitor URL required"

/-! ## Campaign strategy (Gemini normalisation and fallback parser) -/

structure CampaignStrategy where
  product : String
  audience : String
  goal : String
  tone : String
  platforms : List String
  stylistics : String
  location : String
  competitors : List String
  keyFeatures : List String
  painPoints : List String
  budget : String
  timeline : String
deriving Repr, DecidableEq

/-- A duck-typed field of the JSON object parsed out of the Gemini reply:
the code only ever asks `Array.isArray(x)`, so every non-array value
(missing, null, string, ...) collapses to `notArray`. -/
inductive JsArrayField where
  | notArray
  | array (xs : List String)
deriving Repr, DecidableEq

structure RawStrategy where
  product : Option String := none
  audience : Option String := none
  goal : Option String := none
  tone : Option String := none
  platforms : JsArrayField := .notArray
  stylistics : Option String := none
  location : Option String := none
  competitors : JsArrayField := .notArray
  keyFeatures : JsArrayField := .notArray
  painPoints : JsArrayField := .notArray
  budget : Option String := none
  timeline : Option String := none
deriving Repr, DecidableEq

/-- JS `v || d` for string fields (`undefined` and `""` are falsy). -/
def jsOrStr (v : Option String) (d : String) : String :=
  match v with
  | some s => if s == "" then d else s
  | none => d

/-- JS `Array.isArray(v) ? v : []`. -/
def jsArrOrEmpty : JsArrayField → List String
  | .notArray => []
  | .array xs => xs

/-- The validate-and-normalise block of `analyzeWithGemini` (the `_meta`
diagnostics field is omitted). -/
def normalizeGeminiStrategy (raw : RawStrategy) : CampaignStrategy :=
  { product := jsOrStr raw.product "Unknown Product"
    audience := jsOrStr raw.audience "General audience"
    goal := jsOrStr raw.goal "increase brand awareness and engagement"
    tone := jsOrStr raw.tone "engaging and professional"
    platforms :=
      match raw.platforms with
      | .array xs => if 0 < xs.length then xs else ["Instagram", "YouTube", "TikTok"]
      | .notArray => ["Instagram", "YouTube", "TikTok"]
    stylistics := jsOrStr raw.stylistics "modern and creative"
    location := jsOrStr raw.location "GLOBAL"
    competitors := jsArrOrEmpty raw.competitors
    keyFeatures := jsArrOrEmpty raw.keyFeatures
    painPoints := jsArrOrEmpty raw.painPoints
    budget := jsOrStr raw.budget "Not specified"
    timeline := jsOrStr raw.timeline "Not specified" }

/-- The dash-like characters of the regex `/^([^-–—]+)/`. -/
def dashChars : List Char := ['-', '–', '—']

/-- `parsePromptToStrategy`, the keyword fallback of the campaign
controller. -/
def parsePromptToStrategy (promptText : String) : CampaignStrategy :=
  let promptLower := jsToLower promptText
  let beforeDash := promptText.data.takeWhile (fun c => !dashChars.contains c)
  let product :=
    if beforeDash.isEmpty then jsTake promptText 50 else jsTrim (String.mk beforeDash)
  let audience :=
    if jsIncludes promptLower "student" || jsIncludes promptLower "college" then
      "college students and young adults"
    else if jsIncludes promptLower "professional" || jsIncludes promptLower "business" then
      "working professionals"
    else if jsIncludes promptLower "parent" || jsIncludes promptLower "family" then
      "parents and families"
    else if jsIncludes promptLower "fitness" || jsIncludes promptLower "gym" ||
        jsIncludes promptLower "athlete" then
      "fitness enthusiasts and athletes"
    else "target audience"
  let tone :=
    if jsIncludes promptLower "fun" || jsIncludes promptLower "playful" then
      "fun, energetic, and playful"
    else if jsIncludes promptLower "luxury" || jsIncludes promptLower "premium" then
      "sophisticated, elegant, and aspirational"
    else if jsIncludes promptLower "eco" || jsIncludes promptLower "sustainable" ||
        jsIncludes promptLower "green" then
      "inspiring, educational, and eco-conscious"
    else if jsIncludes promptLower "tech" || jsIncludes promptLower "innovation" then
      "innovative, forward-thinking, and tech-savvy"
    else "engaging and professional"
  let goal :=
    if jsIncludes promptLower "awareness" then "build brand awareness and visibility"
    else if jsIncludes promptLower "sales" || jsIncludes promptLower "revenue" then
      "drive online sales and conversions"
    else if jsIncludes promptLower "engagement" then "increase social media engagement"
    else if jsIncludes promptLower "launch" then "successful product launch and market entry"
    else "increase brand awareness and drive sales"
  { product := product
    audience := audience
    goal := goal
    tone := tone
    platforms := ["Instagram", "YouTube", "TikTok"]
    stylistics :=
      if jsIncludes promptLower "eco" || jsIncludes promptLower "sustainable" then
        "eco-friendly and natural"
      else "modern and creative"
    location := "IN"
    competitors := []
    keyFeatures := []
    painPoints := []
    budget := "Not specified"
    timeline := "Not specified" }

/-- The scraping oracle in which every ScrapingBee call rejects (network
error / non-2xx). -/
def scrapeFailEnv : String → Except Unit Document := fun _ => .error ()

/-- A one-element insight list whose analysis comes from the intelligent
mock, exercising the mock-only scenario. -/
def mockInsightList : List Insight :=
  [{ url := "https://example.com", domain := "example.com",
     analysis := generateIntelligentMock "https://example.com" "Acme" "",
     error := none }]

/-! # Theorems -/

/-! ## Shared helper lemmas -/

theorem mem_optRec {r x : Recommendation} {g : Bool} :
    r ∈ optRec g x ↔ g = true ∧ r = x := by
  cases g <;> simp [optRec]

theorem optRec_length_le (g : Bool) (r : Recommendation) : (optRec g r).length ≤ 1 := by
  cases g <;> simp [optRec]

theorem optRec_map_sublist (g : Bool) (r : Recommendation) (f : Recommendation → String) :
    List.Sublist ((optRec g r).map f) [f r] := by
  cases g <;> simp [optRec]

theorem validInsights_eq_nil {insights : List Insight}
    (h : ∀ i ∈ insights, i.analysis = none ∨ i.error ≠ none) :
    validInsights insights = [] := by
  rw [validInsights, List.filter_eq_nil_iff]
  intro i hi
  rcases h i hi with h1 | h1
  · simp [h1]
  · cases herr : i.error with
    | none => exact absurd herr h1
    | some e => simp [herr]

/-! ## C2: determinism and metric formula of the intelligent mock -/

/-- C2: the mock generator is a pure function of `(url, brandContext,
industry)` (so two invocations agree), and whenever `new URL(url).hostname`
yields `d`, with `seed = d.length + brandContext.length` each of the three
metrics is `min 98 (base + seed % 30)` for bases 70 / 60 / 50. -/
theorem generateIntelligentMock_metrics (url brandContext industry d : String)
    (h : urlHostname url = some d) :
    generateIntelligentMock url brandContext industry =
      generateIntelligentMock url brandContext industry ∧
    ∃ a, generateIntelligentMock url brandContext industry = some a ∧
      a.metrics =
        [⟨"Visual Appeal", min 98 (70 + (d.length + brandContext.length) % 30)⟩,
         ⟨"Market Authority", min 98 (60 + (d.length + brandContext.length) % 30)⟩,
         ⟨"Social Engagement", min 98 (50 + (d.length + brandContext.length) % 30)⟩] := by
  refine ⟨rfl, generateIntelligentMockBody d brandContext industry, ?_, rfl⟩
  simp [generateIntelligentMock, h]

/-- Witness for C2 at `url = "https://example.com"`, `brandContext = "Acme"`. -/
theorem generateIntelligentMock_metrics_witness :
    urlHostname "https://example.com" = some "example.com" ∧
    (∃ a, generateIntelligentMock "https://example.com" "Acme" "tech" = some a ∧
      a.metrics =
        [⟨"Visual Appeal", min 98 (70 + ("example.com".length + "Acme".length) % 30)⟩,
         ⟨"Market Authority", min 98 (60 + ("example.com".length + "Acme".length) % 30)⟩,
         ⟨"Social Engagement", min 98 (50 + ("example.com".length + "Acme".length) % 30)⟩]) :=
  ⟨by decide, (generateIntelligentMock_metrics "https://example.com" "Acme" "tech"
    "example.com" (by decide)).2⟩

/-! ## C3: the sentinel on zero valid insights -/

/-- C3: when every insight has a null analysis or an error, the synthesizer
returns the single sentinel message (a one-element string array), never an
empty list. -/
theorem generateRecommendations_sentinel (insights : List Insight) (bc : String)
    (h : ∀ i ∈ insights, i.analysis = none ∨ i.error ≠ none) :
    generateRecommendations insights bc =
      .sentinel ["Unable to generate recommendations due to scraping errors"] ∧
    ∀ msgs, generateRecommendations insights bc = .sentinel msgs → msgs.length = 1 := by
  have hv := validInsights_eq_nil h
  constructor
  · simp [generateRecommendations, hv]
  · intro msgs hm
    simp [generateRecommendations, hv] at hm
    simp [← hm]

/-- Witness for C3: one failed-scrape insight. -/
theorem generateRecommendations_sentinel_witness :
    generateRecommendations
        [{ url := "https://example.com", domain := "example.com",
           analysis := none, error := some "Failed to scrape this competitor" }] "Acme" =
      .sentinel ["Unable to generate recommendations due to scraping errors"] :=
  (generateRecommendations_sentinel _ "Acme" (by decide)).1

/-! ## C4: extraction on the empty document -/

/-- C4 counterexample: on a document with no matching element for any
selector the extractor reports `wordCount = 1`, not `0`, because JS
`''.split(/\s+/)` is `['']`. -/
theorem extractInsights_empty_wordCount :
    (extractInsights [] "brand").wordCount = some 1 ∧ (1 : Nat) ≠ 0 := by
  decide

/-- C4 as amended: on a document with zero elements the extractor is total
and every collection field is empty and every scalar count is `0`, except
`wordCount`, which is `1` (`''.split(/\s+/).length`). -/
theorem extractInsights_empty (bc : String) :
    extractInsights [] bc =
      { title := some "", metaDescription := some "",
        headings := [], keywords := [], valuePropositions := [], pricingInfo := [],
        testimonials := some [],
        designElements :=
          { hasVideo := false, hasImages := 0, hasCTA := 0,
            colorScheme := some [], layout := some ⟨false, false, false, false, 0⟩,
            wordCount := none },
        contentLength := some 0, wordCount := some 1,
        strengths := [], weaknesses := [], metrics := [] } := rfl

/-! ## C6: the EcoBottle scenario through the fallback parser -/

/-- C6: `parsePromptToStrategy` is a pure function; on
`"EcoBottle - sustainable water bottle for students"` it picks the student
audience, an eco-conscious tone (third tone branch, first match wins), the
generic default goal, and the text before the first dash as product. -/
theorem parsePromptToStrategy_ecobottle :
    parsePromptToStrategy "EcoBottle - sustainable water bottle for students" =
      { product := "EcoBottle", audience := "college students and young adults",
        goal := "increase brand awareness and drive sales",
        tone := "inspiring, educational, and eco-conscious",
        platforms := ["Instagram", "YouTube", "TikTok"],
        stylistics := "eco-friendly and natural", location := "IN",
        competitors := [], keyFeatures := [], painPoints := [],
        budget := "Not specified", timeline := "Not specified" } ∧
    ∃ pre post,
      (parsePromptToStrategy "EcoBottle - sustainable water bottle for students").tone =
        pre ++ "eco-conscious" ++ post :=
  ⟨by decide, "inspiring, educational, and ", "", by decide⟩

/-! ## C7: the fixed platform triple -/

/-- C7: a Gemini reply whose `platforms` is missing/non-array or an empty
array is normalised to the fixed triple, and the fallback parser emits that
triple for every input. -/
theorem platforms_default (raw : RawStrategy) (text : String)
    (h : raw.platforms = .notArray ∨ raw.platforms = .array []) :
    (normalizeGeminiStrategy raw).platforms = ["Instagram", "YouTube", "TikTok"] ∧
    (parsePromptToStrategy text).platforms = ["Instagram", "YouTube", "TikTok"] := by
  constructor
  · rcases h with h | h <;> simp [normalizeGeminiStrategy, h]
  · rfl

/-- Witness for C7 at a `notArray` raw strategy and a concrete prompt. -/
theorem platforms_default_witness :
    (normalizeGeminiStrategy { platforms := .notArray }).platforms =
      ["Instagram", "YouTube", "TikTok"] ∧
    (parsePromptToStrategy "EcoBottle").platforms = ["Instagram", "YouTube", "TikTok"] :=
  platforms_default { platforms := .notArray } "EcoBottle" (Or.inl rfl)

/-! ## Helpers for the recommendation-list claims -/

theorem generateRecommendations_structured {insights : List Insight} {bc : String}
    {rs : List Recommendation}
    (h : generateRecommendations insights bc = .structured rs) :
    validInsights insights ≠ [] ∧ rs = recommendationList insights := by
  unfold generateRecommendations at h
  split at h
  · cases h
  · next hn =>
    refine ⟨fun hnil => hn (by rw [hnil]; rfl), ?_⟩
    injection h with h
    exact h.symm

theorem mem_sixBlocks {r r1 r2 r3 r4 r5 r6 : Recommendation} {g1 g2 g3 g4 g5 g6 : Bool}
    (h : r ∈ optRec g1 r1 ++ optRec g2 r2 ++ optRec g3 r3 ++ optRec g4 r4 ++
      optRec g5 r5 ++ optRec g6 r6) :
    (g1 = true ∧ r = r1) ∨ (g2 = true ∧ r = r2) ∨ (g3 = true ∧ r = r3) ∨
    (g4 = true ∧ r = r4) ∨ (g5 = true ∧ r = r5) ∨ (g6 = true ∧ r = r6) := by
  simp only [List.mem_append, mem_optRec] at h
  tauto

theorem sixBlocks_length_le (g1 g2 g3 g4 g5 g6 : Bool) (r1 r2 r3 r4 r5 r6 : Recommendation) :
    (optRec g1 r1 ++ optRec g2 r2 ++ optRec g3 r3 ++ optRec g4 r4 ++
      optRec g5 r5 ++ optRec g6 r6).length ≤ 6 := by
  have h1 := optRec_length_le g1 r1
  have h2 := optRec_length_le g2 r2
  have h3 := optRec_length_le g3 r3
  have h4 := optRec_length_le g4 r4
  have h5 := optRec_length_le g5 r5
  have h6 := optRec_length_le g6 r6
  simp only [List.length_append]
  omega

theorem sixBlocks_map_sublist (g1 g2 g3 g4 g5 g6 : Bool) (r1 r2 r3 r4 r5 r6 : Recommendation)
    (f : Recommendation → String) :
    List.Sublist ((optRec g1 r1 ++ optRec g2 r2 ++ optRec g3 r3 ++ optRec g4 r4 ++
      optRec g5 r5 ++ optRec g6 r6).map f) [f r1, f r2, f r3, f r4, f r5, f r6] := by
  simp only [List.map_append]
  have h := (((((optRec_map_sublist g1 r1 f).append (optRec_map_sublist g2 r2 f)).append
    (optRec_map_sublist g3 r3 f)).append (optRec_map_sublist g4 r4 f)).append
    (optRec_map_sublist g5 r5 f)).append (optRec_map_sublist g6 r6 f)
  simpa using h

theorem videoGate_iff (vs : List Insight) :
    videoGate vs = true ↔ 2 * totalHasVideo vs > vs.length := by
  rw [videoGate, decide_eq_true_eq, gt_iff_lt, div_lt_iff (by norm_num : (0:ℚ) < 2),
    gt_iff_lt]
  constructor
  · intro h
    exact_mod_cast (by linarith : ((vs.length : ℚ)) < 2 * (totalHasVideo vs : ℚ))
  · intro h
    have h2 : ((vs.length : ℚ)) < 2 * (totalHasVideo vs : ℚ) := by exact_mod_cast h
    linarith

theorem jsRound_100 : jsRound (100 : ℚ) = 100 := by
  rw [jsRound, Int.floor_eq_iff] <;> norm_num

theorem mock_analysis_fields {u b ind : String} {a : Analysis}
    (h : generateIntelligentMock u b ind = some a) :
    a.wordCount = none ∧ a.testimonials = none := by
  rw [generateIntelligentMock] at h
  cases hu : urlHostname u with
  | none => rw [hu] at h; cases h
  | some d =>
    rw [hu] at h
    have hb : generateIntelligentMockBody d b ind = a := by
      simpa using h
    rw [← hb]
    exact ⟨rfl, rfl⟩

/-! ## C5: the per-URL catch block re-throws on unparseable URLs -/

/-- C5 failing input: with both URLs failing to scrape, the malformed first
URL makes the error-record construction in the `catch` block call
`new URL(url)` again, which throws and aborts the whole batch as a 500 —
the well-formed second URL is never reported, contradicting the claim that
a per-URL failure degrades only that entry.  With only well-formed URLs the
loop does degrade per-entry. -/
theorem analyzeCompetitor_batch_abort :
    analyzeCompetitor scrapeFailEnv (some "My brand") (some ["not a url", "https://example.com"]) =
      .serverError "Failed to analyze competitors" ∧
    urlHostname "https://example.com" = some "example.com" ∧
    analyzeCompetitor scrapeFailEnv (some "My brand") (some ["https://example.com"]) =
      .ok { brandContext := "My brand",
            insights := [{ url := "https://example.com", domain := "example.com",
                           analysis := none,
                           error := some "Failed to scrape this competitor" }],
            recommendations :=
              .sentinel ["Unable to generate recommendations due to scraping errors"] } := by
  refine ⟨?_, by decide, ?_⟩ <;> decide

/-! ## C8: the video gate -/

/-- C8: the Video Content Opportunity recommendation is emitted exactly when
strictly more than half of the valid insights have `hasVideo`; when every
valid insight has `hasVideo` (and at least one exists) it is present and its
insight text reports 100%. -/
theorem videoRecommendation_spec (insights : List Insight) (bc : String) :
    ∀ rs, generateRecommendations insights bc = .structured rs →
      ((∃ r ∈ rs, r.category = "Media Strategy") ↔
        2 * totalHasVideo (validInsights insights) > (validInsights insights).length) ∧
      ((∀ i ∈ validInsights insights, ∃ a, i.analysis = some a ∧
          a.designElements.hasVideo = true) →
        ∃ r ∈ rs, r.category = "Media Strategy" ∧
          r.insight = "100% of analyzed competitors use video content") := by
  intro rs hrs
  obtain ⟨hne, hrseq⟩ := generateRecommendations_structured hrs
  subst hrseq
  have hnlen : (validInsights insights).length ≠ 0 := by
    intro h0
    exact hne (List.length_eq_zero.mp h0)
  constructor
  · constructor
    · rintro ⟨r, hr, hcat⟩
      rcases mem_sixBlocks hr with ⟨-, rfl⟩ | ⟨hg, rfl⟩ | ⟨-, rfl⟩ | ⟨-, rfl⟩ | ⟨-, rfl⟩ |
        ⟨-, rfl⟩ <;> first
        | exact (videoGate_iff _).mp hg
        | exact absurd hcat (by simp [keywordRec, messagingRec, ctaRec, trustRec, contentRec,
            videoRec])
    · intro h2v
      have hg : videoGate (validInsights insights) = true := (videoGate_iff _).mpr h2v
      refine ⟨videoRec (videoPct (validInsights insights)), ?_, rfl⟩
      rw [recommendationList]
      simp [List.mem_append, optRec, hg]
  · intro hall
    have hv : totalHasVideo (validInsights insights) = (validInsights insights).length := by
      rw [totalHasVideo, List.countP_eq_length]
      intro i hi
      obtain ⟨a, ha, hvid⟩ := hall i hi
      simp [ha, hvid]
    have hg : videoGate (validInsights insights) = true :=
      (videoGate_iff _).mpr (by omega)
    have hfrac : ((validInsights insights).length : ℚ) / ((validInsights insights).length : ℚ)
        * 100 = 100 := by
      rw [div_self (by exact_mod_cast hnlen)]
      norm_num
    have hpct : videoPct (validInsights insights) = 100 := by
      rw [videoPct, hv, hfrac, jsRound_100]
    refine ⟨videoRec (videoPct (validInsights insights)), ?_, rfl, ?_⟩
    · rw [recommendationList]
      simp [List.mem_append, optRec, hg]
    · rw [hpct]
      decide

/-- Witness for C8: one valid insight with a video. -/
theorem videoRecommendation_spec_witness :
    ∃ r ∈ recommendationList
        [{ url := "u", domain := "d",
           analysis := some { designElements :=
             { hasVideo := true, hasImages := 0, hasCTA := 0 } },
           error := none }],
      r.category = "Media Strategy" ∧
      r.insight = "100% of analyzed competitors use video content" :=
  ((videoRecommendation_spec
      [{ url := "u", domain := "d",
         analysis := some { designElements :=
           { hasVideo := true, hasImages := 0, hasCTA := 0 } },
         error := none }] "b" _
      (by rw [generateRecommendations]; simp [validInsights])).2)
    (by decide)

/-! ## C9: shape invariants of the structured recommendation list -/

/-- C9: the structured output has at most 6 recommendations, with pairwise
distinct categories appearing in the fixed rule-declaration order, and every
priority is high or medium — never low. -/
theorem recommendationList_invariants (insights : List Insight) (bc : String) :
    ∀ rs, generateRecommendations insights bc = .structured rs →
      rs.length ≤ 6 ∧
      List.Sublist (rs.map (fun r => r.category))
        ["Content Strategy", "Media Strategy", "Messaging", "Conversion Optimization",
         "Trust Building", "Content Quality"] ∧
      (rs.map (fun r => r.category)).Nodup ∧
      ∀ r ∈ rs, r.priority = "high" ∨ r.priority = "medium" := by
  intro rs hrs
  obtain ⟨-, hrseq⟩ := generateRecommendations_structured hrs
  subst hrseq
  rw [recommendationList]
  have hsub := sixBlocks_map_sublist
    (decide (0 < (topKeywordsOf (validInsights insights)).length))
    (videoGate (validInsights insights))
    (decide (0 < (allValueProps (validInsights insights)).length))
    (decide (avgCTAsQ (validInsights insights) > 5))
    (decide (0 < withTestimonials (validInsights insights)))
    (decide (avgWordCountQ (validInsights insights) > 500))
    (keywordRec (topKeywordsOf (validInsights insights)))
    (videoRec (videoPct (validInsights insights)))
    messagingRec
    (ctaRec (jsRound (avgCTAsQ (validInsights insights))))
    (trustRec (testiPct (validInsights insights)))
    (contentRec (jsRound (avgWordCountQ (validInsights insights))))
    (fun r => r.category)
  refine ⟨sixBlocks_length_le _ _ _ _ _ _ _ _ _ _ _ _, hsub, ?_, ?_⟩
  · exact hsub.nodup (by
      show List.Nodup ["Content Strategy", "Media Strategy", "Messaging",
        "Conversion Optimization", "Trust Building", "Content Quality"]
      decide)
  · intro r hr
    rcases mem_sixBlocks hr with ⟨-, rfl⟩ | ⟨-, rfl⟩ | ⟨-, rfl⟩ | ⟨-, rfl⟩ | ⟨-, rfl⟩ |
      ⟨-, rfl⟩
    · exact Or.inl rfl
    · exact Or.inr rfl
    · exact Or.inl rfl
    · exact Or.inr rfl
    · exact Or.inl rfl
    · exact Or.inr rfl

/-- Witness for C9 at a one-insight list. -/
theorem recommendationList_invariants_witness :
    (recommendationList
        [{ url := "u", domain := "d",
           analysis := some { designElements :=
             { hasVideo := true, hasImages := 0, hasCTA := 0 } },
           error := none }]).length ≤ 6 ∧
    List.Sublist ((recommendationList
        [{ url := "u", domain := "d",
           analysis := some { designElements :=
             { hasVideo := true, hasImages := 0, hasCTA := 0 } },
           error := none }]).map (fun r => r.category))
      ["Content Strategy", "Media Strategy", "Messaging", "Conversion Optimization",
       "Trust Building", "Content Quality"] ∧
    ((recommendationList
        [{ url := "u", domain := "d",
           analysis := some { designElements :=
             { hasVideo := true, hasImages := 0, hasCTA := 0 } },
           error := none }]).map (fun r => r.category)).Nodup ∧
    ∀ r ∈ recommendationList
        [{ url := "u", domain := "d",
           analysis := some { designElements :=
             { hasVideo := true, hasImages := 0, hasCTA := 0 } },
           error := none }],
      r.priority = "high" ∨ r.priority = "medium" :=
  recommendationList_invariants
    [{ url := "u", domain := "d",
       analysis := some { designElements :=
         { hasVideo := true, hasImages := 0, hasCTA := 0 } },
       error := none }] "b" _
    (by rw [generateRecommendations]; simp [validInsights])

/-! ## C10: mock-only insight lists never trigger the content or trust gates -/

/-- C10: when every present analysis was produced by the intelligent mock
(whose `wordCount` lives inside `designElements` and which has no
`testimonials` field), the synthesizer — which reads only the top-level
fields — never emits the Content Quality or Trust Building
recommendations. -/
theorem mockOnly_no_content_trust (insights : List Insight) (bc : String)
    (h : ∀ i ∈ insights, ∀ a, i.analysis = some a →
      ∃ u b ind, generateIntelligentMock u b ind = some a) :
    ∀ rs, generateRecommendations insights bc = .structured rs →
      ∀ r ∈ rs, r.category ≠ "Content Quality" ∧ r.category ≠ "Trust Building" := by
  intro rs hrs r hr
  obtain ⟨-, hrseq⟩ := generateRecommendations_structured hrs
  subst hrseq
  have hmock : ∀ i ∈ validInsights insights, ∀ a, i.analysis = some a →
      a.wordCount = none ∧ a.testimonials = none := by
    intro i hi a ha
    obtain ⟨u, b, ind, hm⟩ := h i (List.mem_of_mem_filter hi) a ha
    exact mock_analysis_fields hm
  have hsum : sumWordCounts (validInsights insights) = 0 := by
    rw [sumWordCounts]
    apply List.sum_eq_zero
    intro x hx
    simp only [List.mem_map] at hx
    obtain ⟨i, hi, rfl⟩ := hx
    cases hai : i.analysis with
    | none => simp
    | some a => simp [(hmock i hi a hai).1]
  have htest : withTestimonials (validInsights insights) = 0 := by
    rw [withTestimonials, List.countP_eq_zero]
    intro i hi
    cases hai : i.analysis with
    | none => simp
    | some a => simp [(hmock i hi a hai).2]
  have hg6 : decide (avgWordCountQ (validInsights insights) > 500) = false := by
    rw [decide_eq_false_iff_not, avgWordCountQ, hsum]
    norm_num
  have hg5 : decide (0 < withTestimonials (validInsights insights)) = false := by
    rw [decide_eq_false_iff_not, htest]
    norm_num
  rw [recommendationList] at hr
  rcases mem_sixBlocks hr with ⟨-, rfl⟩ | ⟨-, rfl⟩ | ⟨-, rfl⟩ | ⟨-, rfl⟩ | ⟨hg, -⟩ |
    ⟨hg, -⟩
  · exact ⟨by simp [keywordRec], by simp [keywordRec]⟩
  · exact ⟨by simp [videoRec], by simp [videoRec]⟩
  · exact ⟨by simp [messagingRec], by simp [messagingRec]⟩
  · exact ⟨by simp [ctaRec], by simp [ctaRec]⟩
  · rw [hg5] at hg
    cases hg
  · rw [hg6] at hg
    cases hg

/-- Witness for C10: one insight whose analysis is the mock itself; the
keyword recommendation is present and hits neither forbidden category. -/
theorem mockOnly_no_content_trust_witness :
    ∃ r ∈ recommendationList mockInsightList,
      r.category ≠ "Content Quality" ∧ r.category ≠ "Trust Building" := by
  have hmem : keywordRec (topKeywordsOf (validInsights mockInsightList)) ∈
      recommendationList mockInsightList := by
    rw [recommendationList]
    refine List.mem_append_left _ (List.mem_append_left _ (List.mem_append_left _
      (List.mem_append_left _ (List.mem_append_left _ ?_))))
    rw [show decide (0 < (topKeywordsOf (validInsights mockInsightList)).length) = true
      from by decide]
    simp [optRec]
  refine ⟨_, hmem, ?_⟩
  exact mockOnly_no_content_trust mockInsightList "b"
    (by
      intro i hi a ha
      simp only [mockInsightList, List.mem_singleton] at hi
      subst hi
      exact ⟨"https://example.com", "Acme", "", ha⟩)
    _
    (by rw [generateRecommendations]; simp [validInsights, mockInsightList]; decide)
    _ hmem

/-! ## Frequency-map lemmas for the keyword extractor -/

theorem lookupCount_bumpCount_self (m : List (String × Nat)) (w : String) :
    lookupCount (bumpCount m w) w = lookupCount m w + 1 := by
  induction m with
  | nil => simp [bumpCount, lookupCount]
  | cons e rest ih =>
    obtain ⟨k, n⟩ := e
    by_cases hk : k = w
    · subst hk
      simp [bumpCount, lookupCount]
    · simp [bumpCount, lookupCount, hk, ih]

theorem lookupCount_bumpCount_ne {k w : String} (m : List (String × Nat)) (h : k ≠ w) :
    lookupCount (bumpCount m w) k = lookupCount m k := by
  induction m with
  | nil => simp [bumpCount, lookupCount, Ne.symm h]
  | cons e rest ih =>
    obtain ⟨k2, n⟩ := e
    by_cases hk : k2 = w
    · subst hk
      have hne : k2 ≠ k := Ne.symm h
      simp [bumpCount, lookupCount, hne]
    · by_cases hk2 : k2 = k
      · subst hk2
        simp [bumpCount, lookupCount, hk]
      · simp [bumpCount, lookupCount, hk, hk2, ih]

theorem bumpCount_keys (m : List (String × Nat)) (w : String) :
    (bumpCount m w).map Prod.fst =
      if w ∈ m.map Prod.fst then m.map Prod.fst else m.map Prod.fst ++ [w] := by
  induction m with
  | nil => simp [bumpCount]
  | cons e rest ih =>
    obtain ⟨k, n⟩ := e
    by_cases hk : k = w
    · subst hk
      simp [bumpCount]
    · by_cases hw : w ∈ rest.map Prod.fst <;>
        simp [bumpCount, hk, ih, hw, Ne.symm hk]

theorem bumpCount_keys_nodup {m : List (String × Nat)} (h : (m.map Prod.fst).Nodup)
    (w : String) : ((bumpCount m w).map Prod.fst).Nodup := by
  rw [bumpCount_keys]
  split
  · exact h
  · next hw =>
    refine List.Nodup.append h (List.nodup_singleton w) ?_
    intro x hx hx2
    simp only [List.mem_singleton] at hx2
    subst hx2
    exact hw hx

theorem foldl_bumpCount_lookup (ws : List String) :
    ∀ (m : List (String × Nat)) (k : String),
      lookupCount (ws.foldl bumpCount m) k = lookupCount m k + ws.count k := by
  induction ws with
  | nil => intro m k; simp
  | cons w ws ih =>
    intro m k
    rw [List.foldl_cons, ih]
    by_cases hk : k = w
    · subst hk
      rw [lookupCount_bumpCount_self, List.count_cons_self]
      omega
    · rw [lookupCount_bumpCount_ne m hk, List.count_cons_of_ne hk]

theorem foldl_bumpCount_keys_nodup (ws : List String) :
    ∀ m, (m.map Prod.fst).Nodup → ((ws.foldl bumpCount m).map Prod.fst).Nodup := by
  induction ws with
  | nil => intro m h; simpa using h
  | cons w ws ih => intro m h; exact ih _ (bumpCount_keys_nodup h w)

theorem foldl_bumpCount_keys_mem (ws : List String) :
    ∀ m k, k ∈ (ws.foldl bumpCount m).map Prod.fst ↔ k ∈ m.map Prod.fst ∨ k ∈ ws := by
  induction ws with
  | nil => intro m k; simp
  | cons w ws ih =>
    intro m k
    rw [List.foldl_cons, ih, bumpCount_keys]
    split
    · next hw =>
      simp only [List.mem_cons]
      constructor
      · rintro (h | h)
        · exact Or.inl h
        · exact Or.inr (Or.inr h)
      · rintro (h | h | h)
        · exact Or.inl h
        · exact Or.inl (h ▸ hw)
        · exact Or.inr h
    · next hw =>
      simp only [List.mem_append, List.mem_singleton, List.mem_cons]
      tauto

theorem lookupCount_of_mem :
    ∀ {m : List (String × Nat)} {k : String} {n : Nat},
      (m.map Prod.fst).Nodup → (k, n) ∈ m → lookupCount m k = n := by
  intro m
  induction m with
  | nil => intro k n _ h; cases h
  | cons e rest ih =>
    intro k n hnd hm
    obtain ⟨k2, n2⟩ := e
    simp only [List.map_cons, List.nodup_cons] at hnd
    rcases List.mem_cons.mp hm with heq | hm2
    · injection heq with h1 h2
      subst h1
      subst h2
      simp [lookupCount]
    · have hk : k2 ≠ k := by
        intro hkk
        subst hkk
        exact hnd.1 (List.mem_map_of_mem Prod.fst hm2)
      simp [lookupCount, hk]
      exact ih hnd.2 hm2

theorem countTokens_keys_nodup (ws : List String) :
    ((countTokens ws).map Prod.fst).Nodup :=
  foldl_bumpCount_keys_nodup ws [] (by simp)

theorem mem_countTokens_keys (ws : List String) (k : String) :
    k ∈ (countTokens ws).map Prod.fst ↔ k ∈ ws := by
  rw [countTokens, foldl_bumpCount_keys_mem]
  simp

theorem countTokens_count {ws : List String} {k : String} {n : Nat}
    (h : (k, n) ∈ countTokens ws) : n = ws.count k := by
  have h1 := lookupCount_of_mem (countTokens_keys_nodup ws) h
  have h2 := foldl_bumpCount_lookup ws [] k
  rw [countTokens] at h1
  simp [lookupCount] at h2
  omega

/-! ## Enumeration-order and sorting lemmas -/

theorem jsEntries_perm (m : List (String × Nat)) : List.Perm (jsEntries m) m := by
  rw [jsEntries]
  exact ((List.perm_insertionSort numKeyLE _).append_right _).trans
    (List.filter_append_perm _ m)

theorem jsSortByCountDesc_perm (l : List (String × Nat)) :
    List.Perm (jsSortByCountDesc l) l := by
  rw [jsSortByCountDesc]
  have h := (List.perm_insertionSort tagLE l.enum).map Prod.snd
  rw [List.enum_map_snd] at h
  exact h

theorem extractKeywords_perm (text : String) :
    List.Perm (extractKeywords text) ((countTokens (tokenize text)).map Prod.fst) := by
  rw [extractKeywords]
  exact ((jsSortByCountDesc_perm _).trans (jsEntries_perm _)).map Prod.fst

theorem mem_extractKeywords (text : String) (k : String) :
    k ∈ extractKeywords text ↔ k ∈ tokenize text := by
  rw [(extractKeywords_perm text).mem_iff]
  exact mem_countTokens_keys _ k

theorem extractKeywords_nodup (text : String) : (extractKeywords text).Nodup :=
  (extractKeywords_perm text).nodup_iff.mpr (countTokens_keys_nodup _)

theorem tokenize_facts {text k : String} (h : k ∈ tokenize text) :
    3 < k.length ∧ k ∉ stopWords := by
  rw [tokenize] at h
  have hp := (List.mem_filter.mp h).2
  simp only [Bool.and_eq_true, decide_eq_true_eq, Bool.not_eq_true'] at hp
  refine ⟨hp.1, ?_⟩
  intro hmem
  rw [show stopWords.contains k = true from List.elem_iff.mpr hmem] at hp
  exact absurd hp.2 (by simp)

theorem jsEntries_keys_nodup (ws : List String) :
    ((jsEntries (countTokens ws)).map Prod.fst).Nodup :=
  ((jsEntries_perm _).map Prod.fst).nodup_iff.mpr (countTokens_keys_nodup ws)

theorem entry_count {ws : List String} {e : String × Nat}
    (he : e ∈ jsEntries (countTokens ws)) : e.2 = ws.count e.1 := by
  have hm : e ∈ countTokens ws := (jsEntries_perm _).mem_iff.mp he
  obtain ⟨k, n⟩ := e
  exact countTokens_count hm

theorem findIdx_of_keys_nodup :
    ∀ (E : List (String × Nat)), (E.map Prod.fst).Nodup →
      ∀ (i : Nat) (e : String × Nat), E[i]? = some e →
        E.findIdx (fun x => x.1 == e.1) = i := by
  intro E
  induction E with
  | nil => intro _ i e h; simp at h
  | cons a E ih =>
    intro hnd i e hget
    simp only [List.map_cons, List.nodup_cons] at hnd
    cases i with
    | zero =>
      simp only [List.getElem?_cons_zero, Option.some.injEq] at hget
      subst hget
      simp [List.findIdx_cons]
    | succ n =>
      simp only [List.getElem?_cons_succ] at hget
      have hmem : e ∈ E := List.getElem?_mem hget
      have hk : (a.1 == e.1) = false := by
        rw [beq_eq_false_iff_ne]
        intro heq
        exact hnd.1 (heq ▸ List.mem_map_of_mem Prod.fst hmem)
      rw [List.findIdx_cons, hk]
      simp [ih hnd.2 n e hget]

theorem extractKeywords_pairwise (text : String) :
    (extractKeywords text).Pairwise (fun a b =>
      (tokenize text).count b < (tokenize text).count a ∨
      ((tokenize text).count a = (tokenize text).count b ∧
        (jsEntries (countTokens (tokenize text))).findIdx (fun x => x.1 == a) <
        (jsEntries (countTokens (tokenize text))).findIdx (fun x => x.1 == b))) := by
  have hks : extractKeywords text =
      ((jsEntries (countTokens (tokenize text))).enum.insertionSort tagLE).map
        (fun p => p.2.1) := by
    rw [extractKeywords, jsSortByCountDesc, List.map_map]
    rfl
  rw [hks, List.pairwise_map]
  have hsorted : ((jsEntries (countTokens (tokenize text))).enum.insertionSort
      tagLE).Pairwise tagLE :=
    List.sorted_insertionSort tagLE _
  have hperm := List.perm_insertionSort tagLE (jsEntries (countTokens (tokenize text))).enum
  have hfstnd : (((jsEntries (countTokens (tokenize text))).enum.insertionSort
      tagLE).map Prod.fst).Nodup := by
    refine ((hperm.map Prod.fst).nodup_iff).mpr ?_
    rw [List.enum_map_fst]
    exact List.nodup_range _
  have hfst : ((jsEntries (countTokens (tokenize text))).enum.insertionSort
      tagLE).Pairwise (fun p q => p.1 ≠ q.1) := by
    rw [List.Nodup, List.pairwise_map] at hfstnd
    exact hfstnd
  have hget : ∀ p ∈ (jsEntries (countTokens (tokenize text))).enum.insertionSort tagLE,
      (jsEntries (countTokens (tokenize text)))[p.1]? = some p.2 := by
    intro p hp
    exact List.mem_enum_iff_getElem?.mp (hperm.mem_iff.mp hp)
  refine (hsorted.and hfst).imp_of_mem ?_
  intro p q hp hq hpq
  obtain ⟨htag, hne⟩ := hpq
  have hgp := hget p hp
  have hgq := hget q hq
  have hmp : p.2 ∈ jsEntries (countTokens (tokenize text)) := List.getElem?_mem hgp
  have hmq : q.2 ∈ jsEntries (countTokens (tokenize text)) := List.getElem?_mem hgq
  have hcp : p.2.2 = (tokenize text).count p.2.1 := entry_count hmp
  have hcq : q.2.2 = (tokenize text).count q.2.1 := entry_count hmq
  have hip := findIdx_of_keys_nodup _ (jsEntries_keys_nodup (tokenize text)) p.1 p.2 hgp
  have hiq := findIdx_of_keys_nodup _ (jsEntries_keys_nodup (tokenize text)) q.1 q.2 hgq
  rcases htag with hlt | ⟨heq, hle⟩
  · left
    rw [← hcp, ← hcq]
    exact hlt
  · right
    refine ⟨by rw [← hcp, ← hcq, heq], ?_⟩
    rw [hip, hiq]
    exact Nat.lt_of_le_of_ne hle hne

/-! ## C1: the keyword extractor contract -/

/-- C1 as amended: `extractKeywords` returns exactly the distinct surviving
tokens (length > 3, not stop-words), with no duplicates, ranked by
non-increasing raw occurrence count; ties are broken by the JS
`Object.entries` enumeration order of the frequency map — which hoists
digit-only (array-index) keys ahead of the first-seen order — not by plain
first-seen order; it is a pure function (so idempotent), and empty input
yields the empty sequence. -/
theorem extractKeywords_spec (text : String) :
    (∀ k ∈ extractKeywords text, k ∈ tokenize text ∧ 3 < k.length ∧ k ∉ stopWords) ∧
    (∀ k ∈ tokenize text, k ∈ extractKeywords text) ∧
    (extractKeywords text).Nodup ∧
    extractKeywords text = extractKeywords text ∧
    extractKeywords "" = [] ∧
    (extractKeywords text).Pairwise (fun a b =>
      (tokenize text).count b < (tokenize text).count a ∨
      ((tokenize text).count a = (tokenize text).count b ∧
        (jsEntries (countTokens (tokenize text))).findIdx (fun x => x.1 == a) <
        (jsEntries (countTokens (tokenize text))).findIdx (fun x => x.1 == b))) := by
  refine ⟨?_, ?_, extractKeywords_nodup text, rfl, rfl, extractKeywords_pairwise text⟩
  · intro k hk
    have hm := (mem_extractKeywords text k).mp hk
    exact ⟨hm, tokenize_facts hm⟩
  · intro k hk
    exact (mem_extractKeywords text k).mpr hk

/-- Witness for C1 on a concrete text with a repeated keyword. -/
theorem extractKeywords_spec_witness :
    ("keyword" ∈ tokenize "keyword analysis keyword" ∧ 3 < "keyword".length ∧
      "keyword" ∉ stopWords) ∧
    "analysis" ∈ extractKeywords "keyword analysis keyword" :=
  ⟨(extractKeywords_spec "keyword analysis keyword").1 "keyword" (by decide),
   (extractKeywords_spec "keyword analysis keyword").2.1 "analysis" (by decide)⟩

/-- C1 counterexample: on `"wxyz 1234"` both surviving tokens occur once and
`"wxyz"` is seen first, yet the extractor returns `["1234", "wxyz"]`: the JS
frequency-map object enumerates the array-index-like key `"1234"` before the
insertion-ordered key `"wxyz"`, so the tie is not broken by first-seen
order. -/
theorem extractKeywords_tie_counterexample :
    tokenize "wxyz 1234" = ["wxyz", "1234"] ∧
    (tokenize "wxyz 1234").count "wxyz" = (tokenize "wxyz 1234").count "1234" ∧
    extractKeywords "wxyz 1234" = ["1234", "wxyz"] ∧
    extractKeywords "wxyz 1234" ≠ ["wxyz", "1234"] := by
  refine ⟨by decide, by decide, by decide, by decide⟩

end HackSync
